/-
Verification of the kcp generic reconciliation framework.

This development shallowly embeds the controller engine of
`pkg/controller` (the generic typed controller), the APIBinding
cascading enqueuer of `pkg/reconciler/apis/apibinding`, and the
ClusterRole replication controller of
`pkg/reconciler/apis/replicationclusterrole`.

Modelling conventions:
- Go `error` values are modelled as `Option GoErr`, where a `GoErr` is
  the list of cause messages the error carries (`none` = nil error).
- Calls into the rate-limiting work queue (`Add`, `AddRateLimited`,
  `Forget`, `Done`) and into the process-wide error sink
  (`runtime.HandleError`) are recorded as an explicit `Effect` trace.
- Go nil-able typed object pointers are modelled as `Option O`
  (`none` = the zero value / nil pointer of the object type).
- The work queue's internal dirty/processing bookkeeping is implemented
  by the external client-go workqueue package; it is modelled from the
  spec's WorkQueue contract (spec section 4.1) and composed with the
  worker loops taken from the source.
-/
import Mathlib

/-- Queue keys are plain strings (cluster/namespace/name encodings). -/
abbrev Key := String

/-- A Go error value, modelled as the list of cause messages it carries.
A nil Go error is `(none : Option GoErr)`; a plain error built from a
single message is a singleton list; `utilerrors.NewAggregate` joins the
cause lists of several errors. -/
abbrev GoErr := List String

/-- One observable call made by controller code into the work queue or
into the process-wide error sink (`runtime.HandleError`). -/
inductive Effect where
  | add (k : Key)
  | addRateLimited (k : Key)
  | forget (k : Key)
  | reportError (e : GoErr)
  | done (k : Key)
deriving DecidableEq

/-- True exactly on a plain (non-rate-limited) `add` effect. -/
def isPlainAdd (x : Effect) : Bool :=
  match x with
  | Effect.add _ => true
  | _ => false

/-- True exactly on a rate-limited re-add effect. -/
def isRateLimitedAdd (x : Effect) : Bool :=
  match x with
  | Effect.addRateLimited _ => true
  | _ => false

/-- True exactly on an error-sink report effect. -/
def isReport (x : Effect) : Bool :=
  match x with
  | Effect.reportError _ => true
  | _ => false

/-- `controller.handleError` (src/unnamed/part_001 lines 123-133), as the
trace of queue/error-sink calls it performs.  `bound` is the controller's
`numRequeues` field and `retries k` is the queue's current
`NumRequeues(key)` failure count for `k`. -/
def handleError (bound : Nat) (retries : Key → Nat) (e : GoErr) (k : Key) : List Effect :=
  if retries k < bound then [Effect.addRateLimited k]
  else [Effect.forget k, Effect.reportError e]

/-! ## The work queue and the worker pool

The queue implementation itself is the external client-go workqueue; its
membership semantics are modelled from the spec's WorkQueue contract
(section 4.1).  The worker-pool dynamics (`Start` launching workers that
loop `Get`/process/`Done`, src/unnamed/part_001 lines 105-121 and
135-178) are taken from the source. -/

/-- Modelled from the spec: the WorkQueue's membership state
(section 4.1).  `queue` is the FIFO of deliverable keys, `dirty` the set
of keys awaiting processing, `processing` the set of keys currently
marked in-flight.  The implementation lives in the external client-go
workqueue package, outside this repository's sources. -/
structure WQ where
  queue : List Key
  dirty : List Key
  processing : List Key

/-- Modelled from the spec: `add(key)` inserts the key if it is not
already pending; a key currently being processed is deferred (kept
dirty, not queued) until `done`. -/
def WQ.add (s : WQ) (k : Key) : WQ :=
  if k ∈ s.dirty then s
  else
    { queue := if k ∈ s.processing then s.queue else s.queue ++ [k]
      dirty := k :: s.dirty
      processing := s.processing }

/-- Modelled from the spec: `get()` pops the front key, marks it
processing, and clears its dirty mark; returns `none` when no key is
available. -/
def WQ.getItem (s : WQ) : Option (Key × WQ) :=
  match s.queue with
  | [] => none
  | k :: rest =>
      some (k, { queue := rest
                 dirty := s.dirty.erase k
                 processing := k :: s.processing })

/-- Modelled from the spec: `done(key)` releases the in-flight marker;
if the key was re-added while processing (still dirty) it is immediately
re-queued. -/
def WQ.markDone (s : WQ) (k : Key) : WQ :=
  if k ∈ s.dirty then
    { queue := s.queue ++ [k]
      dirty := s.dirty
      processing := s.processing.erase k }
  else
    { queue := s.queue
      dirty := s.dirty
      processing := s.processing.erase k }

/-- A controller with its queue and an unbounded pool of workers: worker
`w` currently holds key `k` iff `workers w = some k`.  Workers follow
the `processNextItem` shape of the source: dequeue with `Get`, process,
then release with the deferred `Done`. -/
structure Sys where
  wq : WQ
  workers : Nat → Option Key

/-- The empty initial system: nothing queued, every worker idle. -/
def initSys : Sys :=
  { wq := { queue := [], dirty := [], processing := [] }
    workers := fun _ => none }

/-- One interleaved step of the controller system: an event handler
enqueues a key (`controller.Enqueue`, src/unnamed/part_001 lines 94-103),
an idle worker dequeues a key (`c.queue.Get()`, line 136), or a worker
finishes its key (the deferred `c.queue.Done(k)`, line 140). -/
inductive SysStep : Sys → Sys → Prop where
  | enqueue (s : Sys) (k : Key) :
      SysStep s { wq := s.wq.add k, workers := s.workers }
  | dequeue (s : Sys) (w : Nat) (k : Key) (q : WQ)
      (hw : s.workers w = none) (hg : s.wq.getItem = some (k, q)) :
      SysStep s { wq := q, workers := Function.update s.workers w (some k) }
  | finish (s : Sys) (w : Nat) (k : Key)
      (hw : s.workers w = some k) :
      SysStep s { wq := s.wq.markDone k, workers := Function.update s.workers w none }

/-- States reachable from the empty system by interleaved steps. -/
inductive SysReach : Sys → Prop where
  | start : SysReach initSys
  | step {s t : Sys} : SysReach s → SysStep s t → SysReach t

/-- The inductive invariant of the controller system: the FIFO holds no
duplicates, queued keys are dirty, in-flight keys are excluded from the
FIFO, the in-flight set has no duplicates, every key held by a worker is
marked in-flight, and no key is held by two workers. -/
def SysInv (s : Sys) : Prop :=
  s.wq.queue.Nodup ∧
  s.wq.processing.Nodup ∧
  (∀ k ∈ s.wq.queue, k ∈ s.wq.dirty) ∧
  (∀ k ∈ s.wq.processing, k ∉ s.wq.queue) ∧
  (∀ w k, s.workers w = some k → k ∈ s.wq.processing) ∧
  (∀ w1 w2 k, s.workers w1 = some k → s.workers w2 = some k → w1 = w2)

/-! ## The generic typed controller (src/unnamed/part_001) -/

/-- The behaviour of one `Reconciler[O]` implementation: the error
`Reconcile` returns, the in-place mutation `Reconcile` applies to the
deep copy it was handed, and the error `PostReconcile` returns given
`(clusterAwareName, prev, cur, reconcileErr)`. -/
structure Recon (O : Type) where
  reconcile : Option O → Option GoErr
  mutate : O → O
  postReconcile : String → Option O → Option O → Option GoErr → Option GoErr

/-- Everything observable about one `processNextItem` execution. -/
structure ProcessResult (O : Type) where
  /-- `some arg` iff `Reconcile` was called, with the `cur` it received. -/
  reconcileArg : Option (Option O)
  /-- `some (clusterAwareName, prev, cur, reconcileErr)` iff `PostReconcile` was called. -/
  postArgs : Option (String × Option O × Option O × Option GoErr)
  /-- The error returned by `Reconcile` (none when not called or nil). -/
  reconErr : Option GoErr
  /-- The error returned by `PostReconcile` (none when not called or nil). -/
  postErr : Option GoErr
  /-- The `err` value at the final `if err != nil` check. -/
  finalErr : Option GoErr
  /-- The trace of queue/error-sink calls made, the deferred `Done` last. -/
  queueEffects : List Effect

/-- `controller.processNextItem` (src/unnamed/part_001 lines 135-178)
for one already-dequeued key `k`.  `parsed` is the result of
`cache.SplitMetaNamespaceKey(key)` (`some clusterAwareName` on success),
`store` the result of `c.indexer.GetByKey(key)` (`.ok none` when the
object is absent with no error).  The deferred `c.queue.Done(k)` is the
last effect on every path. -/
def processNextItem {O : Type} (r : Recon O) (bound : Nat) (retries : Key → Nat)
    (k : Key) (parsed : Option String) (store : Except GoErr (Option O)) :
    ProcessResult O :=
  match parsed with
  | none =>
      { reconcileArg := none, postArgs := none, reconErr := none, postErr := none
        finalErr := none, queueEffects := [Effect.done k] }
  | some clusterAwareName =>
      match store with
      | Except.error e =>
          { reconcileArg := none, postArgs := none, reconErr := none, postErr := none
            finalErr := some e
            queueEffects := handleError bound retries e k ++ [Effect.done k] }
      | Except.ok objOpt =>
          let prev : Option O := objOpt
          let cur0 : Option O := objOpt
          let rerr := r.reconcile cur0
          let cur1 := cur0.map r.mutate
          let perr := r.postReconcile clusterAwareName prev cur1 rerr
          let ferr := match perr with
            | some e => some e
            | none => rerr
          { reconcileArg := some cur0
            postArgs := some (clusterAwareName, prev, cur1, rerr)
            reconErr := rerr, postErr := perr, finalErr := ferr
            queueEffects :=
              (match ferr with
               | some e => handleError bound retries e k
               | none => []) ++ [Effect.done k] }

/-- `controller.Options` (src/unnamed/part_001 lines 40-44). -/
structure Options where
  name : String
  numRequeues : Int
  resyncPeriod : Int

/-- The `numRequeues` computation of `New` (src/unnamed/part_001 lines
57-68), translated statement by statement: `numRequeues := 5`, then
`if options.NumRequeues == 0 { numRequeues = 5 }`. -/
def newNumRequeues (options : Options) : Int :=
  let numRequeues : Int := 5
  if options.numRequeues = 0 then 5 else numRequeues

/-! ## Snapshot-pair aliasing (src/unnamed/part_001 lines 161-168)

`prev = obj.(O); cur = prev.DeepCopyObject().(O)` followed by an
in-place mutation of `cur` by the reconciler is modelled over an
explicit heap of object values: `DeepCopyObject` allocates a fresh
address holding a structurally equal value, and the reconciler's
in-place mutation writes through the copy's address only. -/

/-- A heap of object values: `mem` maps addresses to values, every
address below `next` is allocated, `next` is fresh. -/
structure Heap (V : Type) where
  mem : Nat → V
  next : Nat

/-- `DeepCopyObject`: allocate a fresh address holding a value
structurally equal to the one at `addr`. -/
def Heap.deepCopy {V : Type} (h : Heap V) (addr : Nat) : Nat × Heap V :=
  (h.next, { mem := Function.update h.mem h.next (h.mem addr), next := h.next + 1 })

/-- An in-place mutation `f` applied through the reference `addr`. -/
def Heap.mutateAt {V : Type} (h : Heap V) (f : V → V) (addr : Nat) : Heap V :=
  { mem := Function.update h.mem addr (f (h.mem addr)), next := h.next }

/-- The snapshot-pair step of `processNextItem`: take `prev` from the
store at `prevAddr`, deep-copy it into `cur`, and let the reconciler
mutate `cur` in place with `f`.  Returns `cur`'s address and the heap
after processing. -/
def processSnapshotPair {V : Type} (f : V → V) (h : Heap V) (prevAddr : Nat) :
    Nat × Heap V :=
  let copied := h.deepCopy prevAddr
  (copied.1, copied.2.mutateAt f copied.1)

/-! ## The APIBinding cascading enqueuer
(src/pkg/reconciler/apis/apibinding/apibinding_controller.go) -/

namespace ABind

/-- An APIResourceSchema, by logical cluster and name. -/
structure Schema where
  cluster : String
  name : String
deriving DecidableEq

/-- An APIExport, by logical cluster and name. -/
structure Export where
  cluster : String
  name : String
deriving DecidableEq

/-- An APIBinding, by logical cluster and name. -/
structure Binding where
  cluster : String
  name : String
deriving DecidableEq

/-- A CustomResourceDefinition with the two fields the enqueue path
reads: its logical cluster (`logicalcluster.From`) and the two
APIResourceSchema annotations. -/
structure CRD where
  cluster : String
  name : String
  schemaClusterAnn : String
  schemaNameAnn : String
deriving DecidableEq

/-- `cache.DeletionHandlingMetaNamespaceKeyFunc` on a cluster-aware
object: a deterministic key derived from cluster and name. -/
def objKey (cluster name : String) : String :=
  cluster ++ "|" ++ name

/-- `logicalcluster.New("system:bound-crds")`, the shadow workspace the
CRD event filter admits (apibinding_controller.go line 54). -/
def shadowWorkspaceName : String := "system:bound-crds"

/-- The store/index collaborators of `reconciler`: schema resolution
(`getAPIResourceSchema`), the local and remote-shard APIExport indexers
queried with `ByIndex(indexAPIExportsByAPIResourceSchema, key)`, and the
APIBinding indexer queried with
`ByIndex(indexAPIBindingsByWorkspaceExport, key)`. -/
structure Env where
  getAPIResourceSchema : String → String → Except GoErr Schema
  localExportsBySchema : String → Except GoErr (List Export)
  remoteExportsBySchema : String → Except GoErr (List Export)
  bindingsByExport : String → Except GoErr (List Binding)

/-- One observable action of the enqueue chain: an index lookup, an
APIBinding pushed onto the controller queue, or `runtime.HandleError`. -/
inductive Eff where
  | lookupLocalExports (key : String)
  | lookupRemoteExports (key : String)
  | lookupBindings (key : String)
  | enqueueBinding (b : Binding)
  | handleErr (e : GoErr)
deriving DecidableEq

/-- `reconciler.enqueueAPIExport` (apibinding_controller.go lines
243-263): derive the export's key, look up the APIBindings referencing
it through the bindings-by-export index, and enqueue each. -/
def enqueueAPIExport (env : Env) (e : Export) : List Eff :=
  let key := objKey e.cluster e.name
  match env.bindingsByExport key with
  | Except.error er => [Eff.lookupBindings key, Eff.handleErr er]
  | Except.ok bs => Eff.lookupBindings key :: bs.map Eff.enqueueBinding

/-- `reconciler.enqueueAPIResourceSchema` (apibinding_controller.go
lines 297-320): derive the schema's key, query the local APIExport
index; only when it returns an empty list fall back to the remote-shard
index; then run `enqueueAPIExport` for each export found. -/
def enqueueAPIResourceSchema (env : Env) (s : Schema) : List Eff :=
  let key := objKey s.cluster s.name
  match env.localExportsBySchema key with
  | Except.error er => [Eff.lookupLocalExports key, Eff.handleErr er]
  | Except.ok exps =>
      if exps.isEmpty then
        match env.remoteExportsBySchema key with
        | Except.error er =>
            [Eff.lookupLocalExports key, Eff.lookupRemoteExports key, Eff.handleErr er]
        | Except.ok rexps =>
            Eff.lookupLocalExports key :: Eff.lookupRemoteExports key ::
              (rexps.map (enqueueAPIExport env)).flatten
      else
        Eff.lookupLocalExports key :: (exps.map (enqueueAPIExport env)).flatten

/-- `reconciler.enqueueCRD` (apibinding_controller.go lines 266-294).
`none` models an event object that is not a `*CustomResourceDefinition`
(the type assertion fails and `runtime.HandleError` fires).  A CRD
missing either schema annotation is skipped before any lookup; otherwise
the CRD's APIResourceSchema is resolved and handed to
`enqueueAPIResourceSchema`. -/
def enqueueCRD (env : Env) (obj : Option CRD) : List Eff :=
  match obj with
  | none => [Eff.handleErr ["obj is supposed to be a CustomResourceDefinition"]]
  | some crd =>
      if crd.schemaClusterAnn = "" ∨ crd.schemaNameAnn = "" then []
      else
        match env.getAPIResourceSchema crd.schemaClusterAnn crd.schemaNameAnn with
        | Except.error er => [Eff.handleErr er]
        | Except.ok s => enqueueAPIResourceSchema env s

/-- The `FilterFunc` of the CRD event handler registration
(apibinding_controller.go lines 142-150): only objects that are CRDs
living in the shadow workspace pass. -/
def crdFilter (obj : Option CRD) : Bool :=
  match obj with
  | none => false
  | some crd => crd.cluster = shadowWorkspaceName

/-- The full CRD event-handling path: the
`cache.FilteringResourceEventHandler` runs `enqueueCRD` only when
`crdFilter` admits the object (add, update and delete all route here). -/
def handleCRDEvent (env : Env) (obj : Option CRD) : List Eff :=
  if crdFilter obj then enqueueCRD env obj else []

/-- The APIBindings enqueued in an effect trace, in order. -/
def enqueuedBindings (l : List Eff) : List Binding :=
  l.filterMap fun x =>
    match x with
    | Eff.enqueueBinding b => some b
    | _ => none

/-- True exactly on a remote-shard APIExport index lookup. -/
def isRemoteLookup (x : Eff) : Bool :=
  match x with
  | Eff.lookupRemoteExports _ => true
  | _ => false

end ABind

/-! ## The ClusterRole replication controller
(src/pkg/reconciler/apis/replicationclusterrole/replicationclusterrole_controller.go) -/

namespace RCR

/-- `rbacv1.RoleRef`, with the fields read by the event filter. -/
structure RoleRef where
  kind : String
  apiGroup : String
  name : String
deriving DecidableEq

/-- A ClusterRoleBinding, with its logical cluster and role reference. -/
structure CRB where
  cluster : String
  name : String
  roleRef : RoleRef
deriving DecidableEq

/-- A ClusterRole, by logical cluster and name. -/
structure CR where
  cluster : String
  name : String
deriving DecidableEq

/-- `rbacv1.GroupName`. -/
def rbacGroupName : String := "rbac.authorization.k8s.io"

/-- One observable action of the ClusterRoleBinding event path. -/
inductive REff where
  | getClusterRole (cluster name : String)
  | enqueueClusterRole (key : String)
  | handleErr (e : GoErr)
deriving DecidableEq

/-- `controller.enqueueClusterRoleBinding`
(replicationclusterrole_controller.go lines 132-154).  `none` models an
event object that is not a `*ClusterRoleBinding` after tombstone
unwrapping.  A binding whose RoleRef is not a ClusterRole in the rbac
group returns before the lister lookup; otherwise the referenced
ClusterRole is fetched and enqueued. -/
def enqueueClusterRoleBinding (lookupCR : String → String → Except GoErr CR)
    (obj : Option CRB) : List REff :=
  match obj with
  | none => [REff.handleErr ["unexpected type"]]
  | some crb =>
      if crb.roleRef.kind ≠ "ClusterRole" ∨ crb.roleRef.apiGroup ≠ rbacGroupName then []
      else
        match lookupCR crb.cluster crb.roleRef.name with
        | Except.error e =>
            [REff.getClusterRole crb.cluster crb.roleRef.name, REff.handleErr e]
        | Except.ok cr =>
            [REff.getClusterRole crb.cluster crb.roleRef.name,
             REff.enqueueClusterRole (ABind.objKey cr.cluster cr.name)]

/-- The result of the lister `Get` inside `controller.process`:
`notFound` is the `errors.IsNotFound(err)` case. -/
inductive CRLookup where
  | found (cr : CR)
  | notFound
  | failed (e : GoErr)

/-- `utilerrors.NewAggregate`: nil on an empty error list, otherwise an
aggregate carrying every cause. -/
def newAggregate (errs : List GoErr) : Option GoErr :=
  match errs with
  | [] => none
  | _ => some errs.flatten

/-- Everything observable about one `controller.process` execution. -/
structure RCRResult where
  requeue : Bool
  err : Option GoErr
  reconcileCalled : Bool
  commitCalled : Bool
deriving DecidableEq

/-- `controller.process` (replicationclusterrole_controller.go lines
207-239).  `parse` is the result of `SplitMetaClusterNamespaceKey`
(`none` = malformed key: logged and dropped with no error), `lookup`
the lister result.  `reconcile` returns the mutated deep copy, the
requeue flag and an error; `commit old cur` diffs and patches. -/
def process (parse : Option (String × String)) (lookup : CRLookup)
    (reconcile : CR → CR × Bool × Option GoErr)
    (commit : CR → CR → Option GoErr) : RCRResult :=
  match parse with
  | none => { requeue := false, err := none, reconcileCalled := false, commitCalled := false }
  | some _ =>
      match lookup with
      | CRLookup.notFound =>
          { requeue := false, err := none, reconcileCalled := false, commitCalled := false }
      | CRLookup.failed e =>
          { requeue := false, err := some e, reconcileCalled := false, commitCalled := false }
      | CRLookup.found cr =>
          let old := cr
          let step := reconcile cr
          let cerr := commit old step.1
          let errs :=
            (match step.2.2 with | some e => [e] | none => []) ++
            (match cerr with | some e => [e] | none => [])
          { requeue := step.2.1, err := newAggregate errs
            reconcileCalled := true, commitCalled := true }

/-- `controller.processNextWorkItem`
(replicationclusterrole_controller.go lines 178-205) for one dequeued
key `k`, as its trace of queue/error-sink calls: on error, report and
`AddRateLimited`; on requeue-without-error, plain `Add`; otherwise
`Forget`; the deferred `Done` always runs last. -/
def processNextWorkItem (k : Key) (parse : Option (String × String)) (lookup : CRLookup)
    (reconcile : CR → CR × Bool × Option GoErr)
    (commit : CR → CR → Option GoErr) : List Effect :=
  let res := process parse lookup reconcile commit
  (match res.err with
   | some e => [Effect.reportError e, Effect.addRateLimited k]
   | none => if res.requeue then [Effect.add k] else [Effect.forget k]) ++
  [Effect.done k]

end RCR

/-! ## Decidability helper and concrete evaluation inputs -/

instance {e a : Type} [DecidableEq e] [DecidableEq a] : DecidableEq (Except e a) := fun x y =>
  match x, y with
  | Except.ok u, Except.ok v =>
      if h : u = v then isTrue (by rw [h]) else isFalse (by simp [h])
  | Except.error u, Except.error v =>
      if h : u = v then isTrue (by rw [h]) else isFalse (by simp [h])
  | Except.ok _, Except.error _ => isFalse (fun hc => Except.noConfusion hc)
  | Except.error _, Except.ok _ => isFalse (fun hc => Except.noConfusion hc)

/-- A reconciler whose `Reconcile` and `PostReconcile` both fail, each
with its own cause. -/
def failingRecon : Recon Unit :=
  { reconcile := fun _ => some ["reconcile failed"]
    mutate := id
    postReconcile := fun _ _ _ _ => some ["post failed"] }

/-- A reconciler whose `Reconcile` fails but whose `PostReconcile`
succeeds. -/
def postOkRecon : Recon Unit :=
  { reconcile := fun _ => some ["reconcile failed"]
    mutate := id
    postReconcile := fun _ _ _ _ => none }

/-- A one-cell heap holding the value 7 at address 0. -/
def natHeapEx : Heap Nat := { mem := fun _ => 7, next := 1 }

/-- The system state after enqueuing key "a" and letting worker 0
dequeue it. -/
def sysEx : Sys :=
  { wq := { queue := [], dirty := [], processing := ["a"] }
    workers := Function.update (fun _ => none) 0 (some "a") }

/-- Sample APIExport `e1` in workspace `root`. -/
def expEx1 : ABind.Export := { cluster := "root", name := "e1" }

/-- Sample APIExport `e2` in workspace `root`. -/
def expEx2 : ABind.Export := { cluster := "root", name := "e2" }

/-- Sample APIBinding `b1` referencing `e1`. -/
def bindEx1 : ABind.Binding := { cluster := "w1", name := "b1" }

/-- Sample APIBinding `b2` referencing `e2`. -/
def bindEx2 : ABind.Binding := { cluster := "w2", name := "b2" }

/-- A concrete store/index environment: schema `root|sch` is referenced
by local exports `e1` and `e2`, whose bindings are `b1` and `b2`; the
remote-shard index is empty. -/
def envEx : ABind.Env :=
  { getAPIResourceSchema := fun c n =>
      if c = "root" ∧ n = "sch" then Except.ok { cluster := "root", name := "sch" }
      else Except.error ["not found"]
    localExportsBySchema := fun key =>
      if key = ABind.objKey "root" "sch" then Except.ok [expEx1, expEx2]
      else Except.ok []
    remoteExportsBySchema := fun _ => Except.ok []
    bindingsByExport := fun key =>
      if key = ABind.objKey "root" "e1" then Except.ok [bindEx1]
      else if key = ABind.objKey "root" "e2" then Except.ok [bindEx2]
      else Except.ok [] }

/-- A bound CRD in the shadow workspace annotated with schema
`root`/`sch`. -/
def crdEx : ABind.CRD :=
  { cluster := ABind.shadowWorkspaceName, name := "crd1"
    schemaClusterAnn := "root", schemaNameAnn := "sch" }

/-- The bindings referenced by each sample export. -/
def bOfEx : ABind.Export → List ABind.Binding :=
  fun e => if e.name = "e1" then [bindEx1] else [bindEx2]

/-- A CRD living outside the shadow workspace. -/
def crdWrongCluster : ABind.CRD :=
  { cluster := "elsewhere", name := "crd2"
    schemaClusterAnn := "root", schemaNameAnn := "sch" }

/-- A shadow-workspace CRD missing the schema cluster annotation. -/
def crdNoAnn : ABind.CRD :=
  { cluster := ABind.shadowWorkspaceName, name := "crd3"
    schemaClusterAnn := "", schemaNameAnn := "sch" }

/-- A ClusterRoleBinding whose RoleRef points at a namespaced Role, not
a ClusterRole. -/
def crbWrongKind : RCR.CRB :=
  { cluster := "c", name := "crb1"
    roleRef := { kind := "Role", apiGroup := RCR.rbacGroupName, name := "r" } }

/-- A ClusterRole lister that always finds the requested role. -/
def lookupCREx : String → String → Except GoErr RCR.CR :=
  fun c n => Except.ok { cluster := c, name := n }

/-! ## Work-queue invariant lemmas -/

theorem sysInv_init : SysInv initSys := by
  refine ⟨?_, ?_, ?_, ?_, ?_, ?_⟩ <;> simp [initSys]

theorem sysStep_inv {s t : Sys} (hinv : SysInv s) (hst : SysStep s t) : SysInv t := by
  obtain ⟨hqn, hpn, hqd, hpq, hwp, hww⟩ := hinv
  cases hst with
  | enqueue k =>
    by_cases hd : k ∈ s.wq.dirty
    · refine ⟨?_, ?_, ?_, ?_, ?_, ?_⟩ <;> simp only [WQ.add, if_pos hd] <;>
        first
          | exact hqn
          | exact hpn
          | exact hqd
          | exact hpq
          | exact hwp
          | exact hww
    · by_cases hp : k ∈ s.wq.processing
      · refine ⟨?_, ?_, ?_, ?_, ?_, ?_⟩ <;> simp only [WQ.add, if_neg hd, if_pos hp]
        · exact hqn
        · exact hpn
        · intro a ha; exact List.mem_cons_of_mem _ (hqd a ha)
        · exact hpq
        · exact hwp
        · exact hww
      · have hkq : k ∉ s.wq.queue := fun hk => hd (hqd k hk)
        refine ⟨?_, ?_, ?_, ?_, ?_, ?_⟩ <;> simp only [WQ.add, if_neg hd, if_neg hp]
        · rw [List.nodup_append]
          refine ⟨hqn, List.nodup_singleton k, ?_⟩
          intro a ha hb
          rw [List.mem_singleton] at hb
          exact hkq (hb ▸ ha)
        · exact hpn
        · intro a ha
          rcases List.mem_append.mp ha with h1 | h1
          · exact List.mem_cons_of_mem _ (hqd a h1)
          · rw [List.mem_singleton] at h1
            exact h1 ▸ List.mem_cons_self _ _
        · intro p hpmem hcontra
          rcases List.mem_append.mp hcontra with h1 | h1
          · exact hpq p hpmem h1
          · rw [List.mem_singleton] at h1
            exact hp (h1 ▸ hpmem)
        · exact hwp
        · exact hww
  | dequeue w k q hw hg =>
    rcases hq : s.wq.queue with _ | ⟨k0, rest⟩ <;> unfold WQ.getItem at hg <;> rw [hq] at hg
    · exact absurd hg (by simp)
    · simp only [Option.some.injEq, Prod.mk.injEq] at hg
      obtain ⟨hk, hqeq⟩ := hg
      subst hk
      subst hqeq
      have hqn' : (k0 :: rest).Nodup := by rw [hq] at hqn; exact hqn
      obtain ⟨hk0rest, hrestnodup⟩ := List.nodup_cons.mp hqn'
      have hk0q : k0 ∈ s.wq.queue := by rw [hq]; exact List.mem_cons_self _ _
      have hk0p : k0 ∉ s.wq.processing := fun hmem => hpq k0 hmem hk0q
      refine ⟨hrestnodup, List.nodup_cons.mpr ⟨hk0p, hpn⟩, ?_, ?_, ?_, ?_⟩
      · intro a ha
        have hane : a ≠ k0 := fun he => hk0rest (he ▸ ha)
        refine (List.mem_erase_of_ne hane).mpr (hqd a ?_)
        rw [hq]
        exact List.mem_cons_of_mem _ ha
      · intro p hpmem hcontra
        rcases List.mem_cons.mp hpmem with rfl | h1
        · exact hk0rest hcontra
        · refine hpq p h1 ?_
          rw [hq]
          exact List.mem_cons_of_mem _ hcontra
      · intro w1 k1 h1
        dsimp only at h1 ⊢
        by_cases e1 : w1 = w
        · subst e1
          rw [Function.update_same] at h1
          injection h1 with h2
          subst h2
          exact List.mem_cons_self _ _
        · rw [Function.update_noteq e1] at h1
          exact List.mem_cons_of_mem _ (hwp w1 k1 h1)
      · intro w1 w2 k1 h1 h2
        dsimp only at h1 h2
        by_cases e1 : w1 = w <;> by_cases e2 : w2 = w
        · exact e1.trans e2.symm
        · subst e1
          rw [Function.update_same] at h1
          injection h1 with h1e
          subst h1e
          rw [Function.update_noteq e2] at h2
          exact absurd (hwp w2 k0 h2) hk0p
        · subst e2
          rw [Function.update_same] at h2
          injection h2 with h2e
          subst h2e
          rw [Function.update_noteq e1] at h1
          exact absurd (hwp w1 k0 h1) hk0p
        · rw [Function.update_noteq e1] at h1
          rw [Function.update_noteq e2] at h2
          exact hww w1 w2 k1 h1 h2
  | finish w k hw =>
    have hkp : k ∈ s.wq.processing := hwp w k hw
    have hkq : k ∉ s.wq.queue := hpq k hkp
    by_cases hd : k ∈ s.wq.dirty
    · refine ⟨?_, ?_, ?_, ?_, ?_, ?_⟩ <;> simp only [WQ.markDone, if_pos hd]
      · rw [List.nodup_append]
        refine ⟨hqn, List.nodup_singleton k, ?_⟩
        intro a ha hb
        rw [List.mem_singleton] at hb
        exact hkq (hb ▸ ha)
      · exact hpn.erase k
      · intro a ha
        rcases List.mem_append.mp ha with h1 | h1
        · exact hqd a h1
        · rw [List.mem_singleton] at h1
          exact h1 ▸ hd
      · intro p hpmem hcontra
        have hpk := (List.Nodup.mem_erase_iff hpn).mp hpmem
        rcases List.mem_append.mp hcontra with h1 | h1
        · exact hpq p hpk.2 h1
        · rw [List.mem_singleton] at h1
          exact hpk.1 h1
      · intro w1 k1 h1
        by_cases e1 : w1 = w
        · subst e1
          rw [Function.update_same] at h1
          exact absurd h1 (by simp)
        · rw [Function.update_noteq e1] at h1
          have hne : k1 ≠ k := fun he => e1 (hww w1 w k (he ▸ h1) hw)
          exact (List.Nodup.mem_erase_iff hpn).mpr ⟨hne, hwp w1 k1 h1⟩
      · intro w1 w2 k1 h1 h2
        by_cases e1 : w1 = w
        · subst e1
          rw [Function.update_same] at h1
          exact absurd h1 (by simp)
        · by_cases e2 : w2 = w
          · subst e2
            rw [Function.update_same] at h2
            exact absurd h2 (by simp)
          · rw [Function.update_noteq e1] at h1
            rw [Function.update_noteq e2] at h2
            exact hww w1 w2 k1 h1 h2
    · refine ⟨?_, ?_, ?_, ?_, ?_, ?_⟩ <;> simp only [WQ.markDone, if_neg hd]
      · exact hqn
      · exact hpn.erase k
      · exact hqd
      · intro p hpmem
        exact hpq p ((List.Nodup.mem_erase_iff hpn).mp hpmem).2
      · intro w1 k1 h1
        by_cases e1 : w1 = w
        · subst e1
          rw [Function.update_same] at h1
          exact absurd h1 (by simp)
        · rw [Function.update_noteq e1] at h1
          have hne : k1 ≠ k := fun he => e1 (hww w1 w k (he ▸ h1) hw)
          exact (List.Nodup.mem_erase_iff hpn).mpr ⟨hne, hwp w1 k1 h1⟩
      · intro w1 w2 k1 h1 h2
        by_cases e1 : w1 = w
        · subst e1
          rw [Function.update_same] at h1
          exact absurd h1 (by simp)
        · by_cases e2 : w2 = w
          · subst e2
            rw [Function.update_same] at h2
            exact absurd h2 (by simp)
          · rw [Function.update_noteq e1] at h1
            rw [Function.update_noteq e2] at h2
            exact hww w1 w2 k1 h1 h2

theorem sysReach_inv {s : Sys} (h : SysReach s) : SysInv s := by
  induction h with
  | start => exact sysInv_init
  | step _ hst ih => exact sysStep_inv ih hst

/-! ## Effect-trace helper lemmas -/

theorem handleError_count_done (bound : Nat) (retries : Key → Nat) (e : GoErr) (k q : Key) :
    (handleError bound retries e k).count (Effect.done q) = 0 := by
  by_cases h : retries k < bound <;> simp [handleError, h]

theorem enqueuedBindings_append (l1 l2 : List ABind.Eff) :
    ABind.enqueuedBindings (l1 ++ l2) =
      ABind.enqueuedBindings l1 ++ ABind.enqueuedBindings l2 := by
  simp [ABind.enqueuedBindings, List.filterMap_append]

theorem enqueuedBindings_map (bs : List ABind.Binding) :
    ABind.enqueuedBindings (bs.map ABind.Eff.enqueueBinding) = bs := by
  induction bs with
  | nil => rfl
  | cons b r ih =>
      simp only [List.map_cons, ABind.enqueuedBindings, List.filterMap_cons] at ih ⊢
      rw [ih]

theorem enqueuedBindings_export (env : ABind.Env) (e : ABind.Export) (bs : List ABind.Binding)
    (h : env.bindingsByExport (ABind.objKey e.cluster e.name) = Except.ok bs) :
    ABind.enqueuedBindings (ABind.enqueueAPIExport env e) = bs := by
  have hm := enqueuedBindings_map bs
  simp only [ABind.enqueuedBindings, List.filterMap_cons] at hm ⊢
  simp [ABind.enqueueAPIExport, h, List.filterMap_cons, hm]

theorem enqueuedBindings_flatten_map (env : ABind.Env) (exps : List ABind.Export)
    (bOf : ABind.Export → List ABind.Binding)
    (h : ∀ e ∈ exps, env.bindingsByExport (ABind.objKey e.cluster e.name) = Except.ok (bOf e)) :
    ABind.enqueuedBindings ((exps.map (ABind.enqueueAPIExport env)).flatten) =
      (exps.map bOf).flatten := by
  induction exps with
  | nil => rfl
  | cons e rest ih =>
      rw [List.map_cons, List.flatten_cons, enqueuedBindings_append,
        enqueuedBindings_export env e (bOf e) (h e (List.mem_cons_self _ _)),
        List.map_cons, List.flatten_cons,
        ih (fun x hx => h x (List.mem_cons_of_mem _ hx))]

theorem countP_remote_export (env : ABind.Env) (e : ABind.Export) :
    (ABind.enqueueAPIExport env e).countP ABind.isRemoteLookup = 0 := by
  cases h : env.bindingsByExport (ABind.objKey e.cluster e.name) with
  | error er => simp [ABind.enqueueAPIExport, h, ABind.isRemoteLookup]
  | ok bs =>
      simp [ABind.enqueueAPIExport, h, ABind.isRemoteLookup, List.countP_map, Function.comp,
        List.countP_eq_zero]

theorem countP_remote_flatten (env : ABind.Env) (l : List ABind.Export) :
    ((l.map (ABind.enqueueAPIExport env)).flatten).countP ABind.isRemoteLookup = 0 := by
  induction l with
  | nil => rfl
  | cons e rest ih =>
      rw [List.map_cons, List.flatten_cons, List.countP_append, countP_remote_export, ih]

/-! ## Claim theorems -/

/-- C1: for every key whose processing returns an error, `handleError`
re-adds the key rate-limited exactly when the queue's retry count for
the key is below the configured bound; once the bound is reached it
forgets the key (resetting its counter), reports the error to the
process-wide error sink exactly once, and never re-adds the key (no
rate-limited re-add, and no plain add on any path). -/
theorem handleError_bounded_retry_policy (bound : Nat) (retries : Key → Nat)
    (e : GoErr) (k : Key) :
    ((handleError bound retries e k).count (Effect.addRateLimited k)
        = if retries k < bound then 1 else 0)
    ∧ ((handleError bound retries e k).count (Effect.forget k)
        = if retries k < bound then 0 else 1)
    ∧ ((handleError bound retries e k).count (Effect.reportError e)
        = if retries k < bound then 0 else 1)
    ∧ ((handleError bound retries e k).countP isPlainAdd = 0) := by
  by_cases h : retries k < bound <;>
    simp [handleError, h, isPlainAdd, List.count_cons, List.countP_cons]

/-- C3 counterexample: with a reconciler whose `Reconcile` fails with
cause "reconcile failed" and whose `PostReconcile` fails with cause
"post failed", the error `processNextItem` hands to the retry policy is
the `PostReconcile` error alone — it does not carry the `Reconcile`
cause, so the errors are not aggregated into a single error carrying
both causes. -/
theorem postReconcile_error_not_aggregated_counterexample :
    ((processNextItem failingRecon 5 (fun _ => 0) "k" (some "k")
        (Except.ok (some Unit.unit))).reconErr = some ["reconcile failed"])
    ∧ ((processNextItem failingRecon 5 (fun _ => 0) "k" (some "k")
        (Except.ok (some Unit.unit))).postErr = some ["post failed"])
    ∧ ((processNextItem failingRecon 5 (fun _ => 0) "k" (some "k")
        (Except.ok (some Unit.unit))).finalErr = some ["post failed"])
    ∧ (List.elem "reconcile failed"
        ((processNextItem failingRecon 5 (fun _ => 0) "k" (some "k")
          (Except.ok (some Unit.unit))).finalErr.getD []) = false) :=
  ⟨rfl, rfl, rfl, rfl⟩

/-- C3 amended: for every dequeued key whose store lookup succeeds,
`PostReconcile` is invoked after `Reconcile` regardless of Reconcile's
outcome, receiving `(clusterAwareName, prev, cur, reconcileErr)`; but
the single error passed to the retry policy is PostReconcile's error
alone whenever PostReconcile fails (Reconcile's error is overwritten,
not combined), and is Reconcile's error only when PostReconcile
succeeds. -/
theorem postReconcile_always_runs_error_overwrites {O : Type} (r : Recon O)
    (bound : Nat) (retries : Key → Nat) (k : Key) (n : String) (objOpt : Option O) :
    ((processNextItem r bound retries k (some n) (Except.ok objOpt)).postArgs
        = some (n, objOpt, objOpt.map r.mutate, r.reconcile objOpt))
    ∧ (∀ e, (processNextItem r bound retries k (some n) (Except.ok objOpt)).postErr = some e →
        (processNextItem r bound retries k (some n) (Except.ok objOpt)).finalErr = some e)
    ∧ ((processNextItem r bound retries k (some n) (Except.ok objOpt)).postErr = none →
        (processNextItem r bound retries k (some n) (Except.ok objOpt)).finalErr
          = r.reconcile objOpt) := by
  refine ⟨rfl, ?_, ?_⟩ <;>
    cases hperr : r.postReconcile n objOpt (objOpt.map r.mutate) (r.reconcile objOpt) <;>
      simp [processNextItem, hperr]

/-- Witness for the amended C3 theorem: applied to a reconciler whose
post-hook fails and to one whose post-hook succeeds. -/
theorem postReconcile_always_runs_error_overwrites_witness :
    ((processNextItem failingRecon 5 (fun _ => 0) "k" (some "k")
        (Except.ok (some Unit.unit))).postErr = some ["post failed"])
    ∧ ((processNextItem failingRecon 5 (fun _ => 0) "k" (some "k")
        (Except.ok (some Unit.unit))).finalErr = some ["post failed"])
    ∧ ((processNextItem postOkRecon 5 (fun _ => 0) "k" (some "k")
        (Except.ok (some Unit.unit))).postErr = none)
    ∧ ((processNextItem postOkRecon 5 (fun _ => 0) "k" (some "k")
        (Except.ok (some Unit.unit))).finalErr = some ["reconcile failed"]) := by
  refine ⟨rfl, ?_, rfl, ?_⟩
  · exact (postReconcile_always_runs_error_overwrites failingRecon 5 (fun _ => 0)
      "k" "k" (some Unit.unit)).2.1 ["post failed"] rfl
  · exact (postReconcile_always_runs_error_overwrites postOkRecon 5 (fun _ => 0)
      "k" "k" (some Unit.unit)).2.2 rfl

/-- C4: the `New` constructor never reads `options.NumRequeues` into the
controller's retry bound — the bound is 5 for every `Options` value, in
particular for `NumRequeues = 7`, where the spec expects 7.  The code
initialises `numRequeues := 5` and the `if options.NumRequeues == 0`
branch re-assigns 5 instead of `options.NumRequeues`. -/
theorem newNumRequeues_ignores_options :
    (∀ o : Options, newNumRequeues o = 5)
    ∧ newNumRequeues { name := "test", numRequeues := 7, resyncPeriod := 0 } = 5 := by
  constructor
  · intro o
    by_cases h : o.numRequeues = 0 <;> simp [newNumRequeues, h]
  · rfl

/-- C5: for every dequeued key whose object is absent from the store
(lookup returns `.ok none`, i.e. no object and no error),
`processNextItem` still calls `Reconcile`, passing the zero value of the
object type (`none` models the nil pointer), and then calls
`PostReconcile` with zero-valued `prev` and `cur`. -/
theorem absent_object_reconciled_with_zero_value {O : Type} (r : Recon O)
    (bound : Nat) (retries : Key → Nat) (k : Key) (n : String) :
    ((processNextItem r bound retries k (some n) (Except.ok (none : Option O))).reconcileArg
        = some none)
    ∧ ((processNextItem r bound retries k (some n) (Except.ok (none : Option O))).postArgs
        = some (n, none, none, r.reconcile none)) :=
  ⟨rfl, rfl⟩

/-- C6: for every dequeued key whose ClusterRole lookup reports
NotFound, `process` completes without error and without invoking the
reconcile or commit logic, and `processNextWorkItem` then resets the
key's failure counter via `Forget` (no retry, no rate-limited re-add)
before the deferred `Done`. -/
theorem notFound_forgotten_without_processing (p n : String) (k : Key)
    (reconcile : RCR.CR → RCR.CR × Bool × Option GoErr)
    (commit : RCR.CR → RCR.CR → Option GoErr) :
    (RCR.process (some (p, n)) RCR.CRLookup.notFound reconcile commit
        = { requeue := false, err := none, reconcileCalled := false, commitCalled := false })
    ∧ (RCR.processNextWorkItem k (some (p, n)) RCR.CRLookup.notFound reconcile commit
        = [Effect.forget k, Effect.done k]) :=
  ⟨rfl, rfl⟩

/-- C9: for every allocated store snapshot `prev`, the processing step
deep-copies it into a fresh `cur` (a distinct reference holding a
structurally equal value) and the reconciler's in-place mutation `f`
affects only the copy: after processing, the store's snapshot value is
unchanged and the copy holds `f prev`. -/
theorem snapshot_pair_framing {V : Type} (f : V → V) (h : Heap V) (prevAddr : Nat)
    (halloc : prevAddr < h.next) :
    prevAddr < (processSnapshotPair f h prevAddr).1
    ∧ ((h.deepCopy prevAddr).2.mem (h.deepCopy prevAddr).1 = h.mem prevAddr)
    ∧ ((processSnapshotPair f h prevAddr).2.mem prevAddr = h.mem prevAddr)
    ∧ ((processSnapshotPair f h prevAddr).2.mem (processSnapshotPair f h prevAddr).1
        = f (h.mem prevAddr)) := by
  have hne : prevAddr ≠ h.next := Nat.ne_of_lt halloc
  refine ⟨halloc, ?_, ?_, ?_⟩ <;>
    simp [processSnapshotPair, Heap.deepCopy, Heap.mutateAt, Function.update_same,
      Function.update_noteq hne]

/-- Witness for C9: a one-cell heap holding 7 at address 0, mutated by
`Nat.succ`. -/
theorem snapshot_pair_framing_witness :
    (0 : Nat) < natHeapEx.next
    ∧ (0 < (processSnapshotPair Nat.succ natHeapEx 0).1
       ∧ ((natHeapEx.deepCopy 0).2.mem (natHeapEx.deepCopy 0).1 = natHeapEx.mem 0)
       ∧ ((processSnapshotPair Nat.succ natHeapEx 0).2.mem 0 = natHeapEx.mem 0)
       ∧ ((processSnapshotPair Nat.succ natHeapEx 0).2.mem
            (processSnapshotPair Nat.succ natHeapEx 0).1 = Nat.succ (natHeapEx.mem 0))) :=
  ⟨by decide, snapshot_pair_framing Nat.succ natHeapEx 0 (by decide)⟩

/-- C2: in every reachable state of the controller system, no key is
held by two distinct workers — a key dequeued by `Get` is marked
in-flight and not delivered again until `Done` releases it; and on every
path of both worker loops (`processNextItem` and the replication
controller's `processNextWorkItem`) the deferred `Done` for the dequeued
key runs exactly once, as the last queue call, after processing
completes (including on error). -/
theorem at_most_one_worker_per_key :
    (∀ s : Sys, SysReach s →
        ∀ w1 w2 k, s.workers w1 = some k → s.workers w2 = some k → w1 = w2)
    ∧ (∀ (O : Type) (r : Recon O) (bound : Nat) (retries : Key → Nat) (k : Key)
          (parsed : Option String) (store : Except GoErr (Option O)),
        ((processNextItem r bound retries k parsed store).queueEffects.count
            (Effect.done k) = 1)
        ∧ ((processNextItem r bound retries k parsed store).queueEffects.getLast?
            = some (Effect.done k)))
    ∧ (∀ (k : Key) (parse : Option (String × String)) (lookup : RCR.CRLookup)
          (reconcile : RCR.CR → RCR.CR × Bool × Option GoErr)
          (commit : RCR.CR → RCR.CR → Option GoErr),
        ((RCR.processNextWorkItem k parse lookup reconcile commit).count
            (Effect.done k) = 1)
        ∧ ((RCR.processNextWorkItem k parse lookup reconcile commit).getLast?
            = some (Effect.done k))) := by
  refine ⟨?_, ?_, ?_⟩
  · intro s hs
    exact (sysReach_inv hs).2.2.2.2.2
  · intro O r bound retries k parsed store
    refine ⟨?_, ?_⟩ <;> cases parsed with
    | none => simp [processNextItem]
    | some n =>
        cases store with
        | error e =>
            simp [processNextItem, List.count_append, handleError_count_done,
              List.getLast?_concat]
        | ok obj =>
            cases hr : r.reconcile obj with
            | none =>
                cases hp : r.postReconcile n obj (obj.map r.mutate) none <;>
                  simp [processNextItem, hr, hp, List.count_append, handleError_count_done,
                    List.getLast?_concat]
            | some e1 =>
                cases hp : r.postReconcile n obj (obj.map r.mutate) (some e1) <;>
                  simp [processNextItem, hr, hp, List.count_append, handleError_count_done,
                    List.getLast?_concat]
  · intro k parse lookup reconcile commit
    unfold RCR.processNextWorkItem
    refine ⟨?_, ?_⟩ <;>
      cases hres : (RCR.process parse lookup reconcile commit).err with
    | some e => simp [hres, List.count_append, List.getLast?_concat]
    | none =>
        cases hreq : (RCR.process parse lookup reconcile commit).requeue <;>
          simp [hres, hreq, List.count_append, List.getLast?_concat]

/-- Witness for C2: the state reached by enqueuing key "a" and letting
worker 0 dequeue it is reachable, worker 0 holds "a", and the invariant
instantiated at workers 0 and 0 yields 0 = 0. -/
theorem at_most_one_worker_per_key_witness :
    SysReach sysEx ∧ sysEx.workers 0 = some "a" ∧ (0 : Nat) = 0 := by
  have hreach : SysReach sysEx :=
    SysReach.step (SysReach.step SysReach.start (SysStep.enqueue initSys "a"))
      (SysStep.dequeue { wq := initSys.wq.add "a", workers := initSys.workers } 0 "a"
        { queue := [], dirty := [], processing := ["a"] } rfl rfl)
  have hh : sysEx.workers 0 = some "a" := by
    simp [sysEx, Function.update_same]
  exact ⟨hreach, hh, at_most_one_worker_per_key.1 sysEx hreach 0 0 "a" hh hh⟩

/-- C7: for every CRD event that passes the shadow-workspace filter and
carries both schema annotations, with the CRD's APIResourceSchema
resolving to `s` and the APIExport index returning `exps` for `s`'s key
(nonempty, so the local index is authoritative), the event path enqueues
exactly the APIBindings referencing each of those exports through the
bindings-by-export index: the chain CRD → schema → export → binding. -/
theorem crd_event_fans_out_to_bindings (env : ABind.Env) (crd : ABind.CRD)
    (s : ABind.Schema) (exps : List ABind.Export)
    (bOf : ABind.Export → List ABind.Binding)
    (hfilter : crd.cluster = ABind.shadowWorkspaceName)
    (hann1 : crd.schemaClusterAnn ≠ "")
    (hann2 : crd.schemaNameAnn ≠ "")
    (hres : env.getAPIResourceSchema crd.schemaClusterAnn crd.schemaNameAnn = Except.ok s)
    (hlocal : env.localExportsBySchema (ABind.objKey s.cluster s.name) = Except.ok exps)
    (hne : exps.isEmpty = false)
    (hbind : ∀ e ∈ exps,
        env.bindingsByExport (ABind.objKey e.cluster e.name) = Except.ok (bOf e)) :
    ABind.enqueuedBindings (ABind.handleCRDEvent env (some crd)) = (exps.map bOf).flatten := by
  have h1 : ABind.handleCRDEvent env (some crd) =
      ABind.Eff.lookupLocalExports (ABind.objKey s.cluster s.name)
        :: (exps.map (ABind.enqueueAPIExport env)).flatten := by
    simp [ABind.handleCRDEvent, ABind.crdFilter, hfilter, ABind.enqueueCRD, hann1, hann2,
      hres, ABind.enqueueAPIResourceSchema, hlocal, hne]
  rw [h1]
  have h2 := enqueuedBindings_flatten_map env exps bOf hbind
  simp only [ABind.enqueuedBindings, List.filterMap_cons] at h2 ⊢
  exact h2

/-- Witness for C7: the concrete environment where schema `root|sch` is
referenced by exports `e1`, `e2` whose bindings are `b1`, `b2`. -/
theorem crd_event_fans_out_to_bindings_witness :
    (crdEx.cluster = ABind.shadowWorkspaceName)
    ∧ (crdEx.schemaClusterAnn = "root" ∧ crdEx.schemaNameAnn = "sch")
    ∧ (envEx.getAPIResourceSchema "root" "sch"
        = Except.ok { cluster := "root", name := "sch" })
    ∧ (envEx.localExportsBySchema (ABind.objKey "root" "sch") = Except.ok [expEx1, expEx2])
    ∧ (ABind.enqueuedBindings (ABind.handleCRDEvent envEx (some crdEx))
        = ([expEx1, expEx2].map bOfEx).flatten) := by
  refine ⟨rfl, ⟨rfl, rfl⟩, rfl, rfl, ?_⟩
  refine crd_event_fans_out_to_bindings envEx crdEx { cluster := "root", name := "sch" }
    [expEx1, expEx2] bOfEx rfl (by decide) (by decide) rfl rfl rfl ?_
  intro e he
  rcases List.mem_cons.mp he with rfl | he2
  · rfl
  · rcases List.mem_cons.mp he2 with rfl | he3
    · rfl
    · exact absurd he3 (List.not_mem_nil _)

/-- C8: events about irrelevant objects return before any index lookup
or enqueue, leaving the queue unchanged: a CRD event whose object is not
a CustomResourceDefinition or whose logical cluster is not the shadow
workspace produces no effects; a CRD missing either schema annotation is
dropped by `enqueueCRD` before any lookup; and a ClusterRoleBinding
whose RoleRef is not a ClusterRole in the rbac group causes no lister
lookup and no enqueue. -/
theorem irrelevant_events_cause_no_enqueue :
    (∀ env : ABind.Env, ABind.handleCRDEvent env none = [])
    ∧ (∀ (env : ABind.Env) (crd : ABind.CRD),
        crd.cluster ≠ ABind.shadowWorkspaceName → ABind.handleCRDEvent env (some crd) = [])
    ∧ (∀ (env : ABind.Env) (crd : ABind.CRD),
        crd.schemaClusterAnn = "" ∨ crd.schemaNameAnn = "" →
        ABind.enqueueCRD env (some crd) = [])
    ∧ (∀ (lookupCR : String → String → Except GoErr RCR.CR) (crb : RCR.CRB),
        crb.roleRef.kind ≠ "ClusterRole" ∨ crb.roleRef.apiGroup ≠ RCR.rbacGroupName →
        RCR.enqueueClusterRoleBinding lookupCR (some crb) = []) := by
  refine ⟨fun env => rfl, ?_, ?_, ?_⟩
  · intro env crd h
    simp [ABind.handleCRDEvent, ABind.crdFilter, h]
  · intro env crd h
    rcases h with h | h <;> simp [ABind.enqueueCRD, h]
  · intro lookupCR crb h
    rcases h with h | h <;> simp [RCR.enqueueClusterRoleBinding, h]

/-- Witness for C8: a non-CRD object, a CRD outside the shadow
workspace, a CRD missing its schema cluster annotation, and a
ClusterRoleBinding referencing a namespaced Role. -/
theorem irrelevant_events_cause_no_enqueue_witness :
    (ABind.handleCRDEvent envEx none = [])
    ∧ (ABind.handleCRDEvent envEx (some crdWrongCluster) = [])
    ∧ (ABind.enqueueCRD envEx (some crdNoAnn) = [])
    ∧ (RCR.enqueueClusterRoleBinding lookupCREx (some crbWrongKind) = []) := by
  refine ⟨irrelevant_events_cause_no_enqueue.1 envEx, ?_, ?_, ?_⟩
  · exact irrelevant_events_cause_no_enqueue.2.1 envEx crdWrongCluster (by decide)
  · exact irrelevant_events_cause_no_enqueue.2.2.1 envEx crdNoAnn (Or.inl rfl)
  · exact irrelevant_events_cause_no_enqueue.2.2.2 lookupCREx crbWrongKind (Or.inl (by decide))

/-- C10: for every APIResourceSchema event, the remote-shard APIExport
index is consulted exactly when the local index returns an empty list
for the schema's key (never when it errors or returns exports); and
whenever the local index yields at least one APIExport, the effect trace
is exactly the local lookup followed by the per-export binding fan-out —
no remote lookup and no enqueue derived from remote-shard exports. -/
theorem remote_index_only_on_empty_local (env : ABind.Env) (s : ABind.Schema) :
    ((ABind.enqueueAPIResourceSchema env s).countP ABind.isRemoteLookup
        = if env.localExportsBySchema (ABind.objKey s.cluster s.name) = Except.ok []
          then 1 else 0)
    ∧ (∀ exps, env.localExportsBySchema (ABind.objKey s.cluster s.name) = Except.ok exps →
        exps.isEmpty = false →
        ABind.enqueueAPIResourceSchema env s
          = ABind.Eff.lookupLocalExports (ABind.objKey s.cluster s.name)
            :: (exps.map (ABind.enqueueAPIExport env)).flatten) := by
  constructor
  · cases hl : env.localExportsBySchema (ABind.objKey s.cluster s.name) with
    | error er => simp [ABind.enqueueAPIResourceSchema, hl, ABind.isRemoteLookup]
    | ok exps =>
        cases exps with
        | nil =>
            cases hr : env.remoteExportsBySchema (ABind.objKey s.cluster s.name) with
            | error er2 =>
                simp [ABind.enqueueAPIResourceSchema, hl, hr, ABind.isRemoteLookup]
            | ok rexps =>
                have hform : ABind.enqueueAPIResourceSchema env s
                    = ABind.Eff.lookupLocalExports (ABind.objKey s.cluster s.name)
                      :: ABind.Eff.lookupRemoteExports (ABind.objKey s.cluster s.name)
                      :: (rexps.map (ABind.enqueueAPIExport env)).flatten := by
                  simp [ABind.enqueueAPIResourceSchema, hl, hr]
                rw [hform, List.countP_cons, List.countP_cons, countP_remote_flatten]
                simp [ABind.isRemoteLookup, hl]
        | cons e rest =>
            have hform : ABind.enqueueAPIResourceSchema env s
                = ABind.Eff.lookupLocalExports (ABind.objKey s.cluster s.name)
                  :: ((e :: rest).map (ABind.enqueueAPIExport env)).flatten := by
              simp [ABind.enqueueAPIResourceSchema, hl]
            rw [hform, List.countP_cons, countP_remote_flatten]
            simp [ABind.isRemoteLookup, hl]
  · intro exps hl hne
    simp [ABind.enqueueAPIResourceSchema, hl, hne]

/-- Witness for C10: in the concrete environment the local index yields
`[e1, e2]` for `root|sch`, so the trace is the local lookup followed by
the per-export fan-out only. -/
theorem remote_index_only_on_empty_local_witness :
    (envEx.localExportsBySchema (ABind.objKey "root" "sch") = Except.ok [expEx1, expEx2])
    ∧ ([expEx1, expEx2].isEmpty = false)
    ∧ (ABind.enqueueAPIResourceSchema envEx { cluster := "root", name := "sch" }
        = ABind.Eff.lookupLocalExports (ABind.objKey "root" "sch")
          :: ([expEx1, expEx2].map (ABind.enqueueAPIExport envEx)).flatten) := by
  refine ⟨rfl, rfl, ?_⟩
  exact (remote_index_only_on_empty_local envEx { cluster := "root", name := "sch" }).2
    [expEx1, expEx2] rfl rfl
